import Mathlib

/-!
Verification development for the telemetry-simulator repository.

The C++ sources are shallowly embedded here:
* `src/ring_buffer.h` — a bounded blocking ring buffer with cooperative
  shutdown.  The mutex-protected bodies of `push`/`pop` are modelled as pure
  state transformers; a call that would block (its condition-variable wait
  predicate is false) is modelled as `none`.
* `src/race_engine.h` — the 50 Hz producer: profiles, per-car physics and
  pit state machine, race ordering, frame creation and the run loop.
  `float` arithmetic is idealized as exact rational arithmetic; the shared
  `std::mt19937` pseudo-random stream is abstracted as a function
  `Nat → ℚ` of draw indices, consumed in entity-index order exactly where
  the source draws from `speed_dist(rng_)`.
* `src/telemetry_ui.h` — the consumer loop, latest-frame table and
  leaderboard rendering (data content only, not ANSI formatting).
-/

/-- State of `RingBuffer<T, Capacity>` from `src/ring_buffer.h`: the backing
array (`buffer_`, modelled as a total function from slot index), the write
cursor `head_`, the read cursor `tail_`, and the `shutdown_` flag `sd`. -/
structure RBState (α : Type) where
  buf : Nat → α
  head : Nat
  tail : Nat
  sd : Bool

/-- `RingBuffer::is_full_unsafe`: `(head_ + 1) % Capacity == tail_`. -/
def rbFullTest (Cap : Nat) (s : RBState α) : Prop :=
  (s.head + 1) % Cap = s.tail

instance (Cap : Nat) (s : RBState α) : Decidable (rbFullTest Cap s) := by
  unfold rbFullTest; infer_instance

/-- `RingBuffer::push`.  The wait predicate is `!is_full_unsafe() || shutdown_`;
`none` models a call that blocks (predicate false).  After the wait, a set
shutdown flag makes the call return `false` without inserting; otherwise the
item is stored at `head_` and the write cursor advances modulo `Capacity`. -/
def rbPush (Cap : Nat) (s : RBState α) (x : α) : Option (RBState α × Bool) :=
  if ¬ rbFullTest Cap s ∨ s.sd = true then
    if s.sd = true then some (s, false)
    else some ({ s with buf := Function.update s.buf s.head x,
                        head := (s.head + 1) % Cap }, true)
  else none

/-- `RingBuffer::pop`.  The wait predicate is `head_ != tail_ || shutdown_`;
`none` models a call that blocks.  After the wait, shutdown with an empty
buffer reports absence (`(s, none)`); otherwise the item at `tail_` is
returned and the read cursor advances modulo `Capacity`. -/
def rbPop (Cap : Nat) (s : RBState α) : Option (RBState α × Option α) :=
  if ¬ s.head = s.tail ∨ s.sd = true then
    if s.sd = true ∧ s.head = s.tail then some (s, none)
    else some ({ s with tail := (s.tail + 1) % Cap }, some (s.buf s.tail))
  else none

/-- `RingBuffer::shutdown`: sets the shutdown flag (the condition-variable
broadcasts have no sequential content). -/
def rbShutdown (s : RBState α) : RBState α := { s with sd := true }

/-- `RingBuffer::size`: number of live (pushed, not yet popped) elements,
computed exactly as in the source from the two cursors. -/
def rbSize (Cap : Nat) (s : RBState α) : Nat :=
  if s.tail ≤ s.head then s.head - s.tail else Cap - s.tail + s.head

/-- Cursor well-formedness: both cursors are valid slot indices, as
established by the constructor and preserved by the modulo arithmetic. -/
def rbWf (Cap : Nat) (s : RBState α) : Prop :=
  s.head < Cap ∧ s.tail < Cap

/-- The sequence of live elements in FIFO order: `rbSize` elements starting
at the read cursor, wrapping modulo the capacity. -/
def rbContents (Cap : Nat) (s : RBState α) : List α :=
  (List.range (rbSize Cap s)).map (fun i => s.buf ((s.tail + i) % Cap))

/-- A freshly constructed buffer: both cursors zero, shutdown clear.  The
backing array is uninitialized in the source; it is filled with `a0` here
(never observed before being written). -/
def rbFresh (a0 : α) : RBState α := ⟨fun _ => a0, 0, 0, false⟩

theorem rbSize_lt (Cap : Nat) (s : RBState α)
    (h : rbWf Cap s) : rbSize Cap s < Cap := by
  obtain ⟨h1, h2⟩ := h
  unfold rbSize
  split <;> omega

theorem rbFull_iff (Cap : Nat) (s : RBState α) (h : rbWf Cap s) :
    rbFullTest Cap s ↔ rbSize Cap s = Cap - 1 := by
  obtain ⟨h1, h2⟩ := h
  unfold rbFullTest rbSize
  by_cases hc : s.head + 1 = Cap
  · rw [hc, Nat.mod_self]
    split <;> omega
  · have hlt : s.head + 1 < Cap := by omega
    rw [Nat.mod_eq_of_lt hlt]
    split <;> omega

theorem rbSize_zero_iff (Cap : Nat) (s : RBState α) (h : rbWf Cap s) :
    rbSize Cap s = 0 ↔ s.head = s.tail := by
  obtain ⟨h1, h2⟩ := h
  unfold rbSize
  split <;> omega

theorem addModInj (Cap t a b : Nat) (ha : a < Cap) (hb : b < Cap)
    (h : (t + a) % Cap = (t + b) % Cap) : a = b := by
  have h2 : a % Cap = b % Cap := Nat.ModEq.add_left_cancel' t h
  rwa [Nat.mod_eq_of_lt ha, Nat.mod_eq_of_lt hb] at h2

theorem rbTail_add_size (Cap : Nat) (s : RBState α) (h : rbWf Cap s) :
    (s.tail + rbSize Cap s) % Cap = s.head := by
  obtain ⟨h1, h2⟩ := h
  unfold rbSize
  split
  · have he : s.tail + (s.head - s.tail) = s.head := by omega
    rw [he, Nat.mod_eq_of_lt h1]
  · have he : s.tail + (Cap - s.tail + s.head) = Cap + s.head := by omega
    rw [he, Nat.add_mod_left, Nat.mod_eq_of_lt h1]

theorem rbSize_advance_head (Cap : Nat) (s : RBState α) (h : rbWf Cap s)
    (hnf : ¬ rbFullTest Cap s) :
    (if s.tail ≤ (s.head + 1) % Cap then (s.head + 1) % Cap - s.tail
     else Cap - s.tail + (s.head + 1) % Cap) = rbSize Cap s + 1 := by
  obtain ⟨h1, h2⟩ := h
  unfold rbFullTest at hnf
  unfold rbSize
  by_cases hc : s.head + 1 = Cap
  · rw [hc, Nat.mod_self] at hnf ⊢
    split <;> split <;> omega
  · have hlt : s.head + 1 < Cap := by omega
    rw [Nat.mod_eq_of_lt hlt] at hnf ⊢
    split <;> split <;> omega

theorem rbPush_ok (Cap : Nat) (s : RBState α) (x : α) (h : rbWf Cap s)
    (hsd : s.sd = false) (hnf : ¬ rbFullTest Cap s) :
    ∃ s2, rbPush Cap s x = some (s2, true) ∧ rbWf Cap s2 ∧ s2.sd = false ∧
      s2.tail = s.tail ∧ rbSize Cap s2 = rbSize Cap s + 1 ∧
      rbContents Cap s2 = rbContents Cap s ++ [x] := by
  have hCap : 0 < Cap := by
    obtain ⟨h1, _⟩ := h
    omega
  refine ⟨{ s with buf := Function.update s.buf s.head x,
                   head := (s.head + 1) % Cap }, ?_, ?_, hsd, rfl, ?_, ?_⟩
  · unfold rbPush
    rw [if_pos (Or.inl hnf), if_neg (by simp [hsd])]
  · exact ⟨Nat.mod_lt _ hCap, h.2⟩
  · exact rbSize_advance_head Cap s h hnf
  · have hsz : rbSize Cap ({ s with buf := Function.update s.buf s.head x, head := (s.head + 1) % Cap } : RBState α) = rbSize Cap s + 1 :=
      rbSize_advance_head Cap s h hnf
    unfold rbContents
    rw [hsz, List.range_succ, List.map_append]
    have hslt : rbSize Cap s < Cap := rbSize_lt Cap s h
    congr 1
    · apply List.map_congr_left
      intro i hi
      have hilt : i < rbSize Cap s := List.mem_range.mp hi
      have hne : (s.tail + i) % Cap ≠ s.head := by
        intro heq
        have heq2 : (s.tail + i) % Cap = (s.tail + rbSize Cap s) % Cap := by
          rw [heq, rbTail_add_size Cap s h]
        have := addModInj Cap s.tail i (rbSize Cap s) (by omega) hslt heq2
        omega
      simp only
      rw [Function.update_noteq hne]
    · simp only [List.map_cons, List.map_nil]
      rw [rbTail_add_size Cap s h, Function.update_same]

theorem rbSize_advance_tail (Cap : Nat) (s : RBState α) (h : rbWf Cap s)
    (hne : ¬ s.head = s.tail) :
    (if (s.tail + 1) % Cap ≤ s.head then s.head - (s.tail + 1) % Cap
     else Cap - (s.tail + 1) % Cap + s.head) + 1 = rbSize Cap s := by
  obtain ⟨h1, h2⟩ := h
  unfold rbSize
  by_cases hc : s.tail + 1 = Cap
  · rw [hc, Nat.mod_self]
    split <;> split <;> omega
  · have hlt : s.tail + 1 < Cap := by omega
    rw [Nat.mod_eq_of_lt hlt]
    split <;> split <;> omega

theorem rbPop_ok (Cap : Nat) (s : RBState α) (h : rbWf Cap s)
    (hne : ¬ s.head = s.tail) :
    ∃ s2, rbPop Cap s = some (s2, some (s.buf s.tail)) ∧ rbWf Cap s2 ∧
      s2.sd = s.sd ∧ s2.head = s.head ∧ s2.buf = s.buf ∧
      rbSize Cap s2 + 1 = rbSize Cap s ∧
      rbContents Cap s = s.buf s.tail :: rbContents Cap s2 := by
  have hCap : 0 < Cap := by
    obtain ⟨h1, _⟩ := h
    omega
  refine ⟨{ s with tail := (s.tail + 1) % Cap }, ?_, ?_, rfl, rfl, rfl, ?_, ?_⟩
  · unfold rbPop
    rw [if_pos (Or.inl hne), if_neg (by simp [hne])]
  · exact ⟨h.1, Nat.mod_lt _ hCap⟩
  · exact rbSize_advance_tail Cap s h hne
  · have hsz : rbSize Cap { s with tail := (s.tail + 1) % Cap } + 1 =
        rbSize Cap s := rbSize_advance_tail Cap s h hne
    unfold rbContents
    rw [← hsz, List.range_succ_eq_map, List.map_cons, List.map_map]
    congr 1
    · rw [Nat.add_zero, Nat.mod_eq_of_lt h.2]
    · apply List.map_congr_left
      intro i _
      simp only [Function.comp_apply]
      congr 1
      rw [Nat.mod_add_mod]
      congr 1
      omega

/-- Repeatedly call `pop`, requiring each call to return a record; models a
consumer performing `n` successful pops in sequence. -/
def rbDrain (Cap : Nat) : RBState α → Nat → Option (RBState α × List α)
  | s, 0 => some (s, [])
  | s, n + 1 =>
    match rbPop Cap s with
    | some (s2, some x) =>
      match rbDrain Cap s2 n with
      | some (s3, l) => some (s3, x :: l)
      | _ => none
    | _ => none

/-- Push a whole list, requiring every push to return `true`. -/
def rbPushAll (Cap : Nat) : RBState α → List α → Option (RBState α)
  | s, [] => some s
  | s, x :: r =>
    match rbPush Cap s x with
    | some (s2, true) => rbPushAll Cap s2 r
    | _ => none

theorem rbContents_length (Cap : Nat) (s : RBState α) :
    (rbContents Cap s).length = rbSize Cap s := by
  simp [rbContents]

theorem rbDrain_contents (Cap : Nat) :
    ∀ (c : List α) (s : RBState α), rbWf Cap s → rbContents Cap s = c →
    ∃ s2, rbDrain Cap s c.length = some (s2, c) ∧ rbWf Cap s2 ∧
      s2.sd = s.sd ∧ rbContents Cap s2 = [] := by
  intro c
  induction c with
  | nil =>
    intro s hwf hc
    exact ⟨s, rfl, hwf, rfl, hc⟩
  | cons x rest ih =>
    intro s hwf hc
    have hne : ¬ s.head = s.tail := by
      intro he
      have h0 : rbSize Cap s = 0 := (rbSize_zero_iff Cap s hwf).mpr he
      have := rbContents_length Cap s
      rw [hc, h0] at this
      simp at this
    obtain ⟨s2, hpop, hwf2, hsd2, _, _, _, hcont⟩ := rbPop_ok Cap s hwf hne
    rw [hc] at hcont
    have hx : s.buf s.tail = x := (List.cons.injEq _ _ _ _).mp hcont.symm |>.1
    have hrest : rbContents Cap s2 = rest :=
      ((List.cons.injEq _ _ _ _).mp hcont.symm).2
    obtain ⟨s3, hdr, hwf3, hsd3, hc3⟩ := ih s2 hwf2 hrest
    refine ⟨s3, ?_, hwf3, by rw [hsd3, hsd2], hc3⟩
    simp only [List.length_cons, rbDrain, hpop, hdr, hx]

theorem rbPushAll_sound (Cap : Nat) :
    ∀ (l : List α) (s s2 : RBState α), rbWf Cap s → s.sd = false →
    rbPushAll Cap s l = some s2 →
    rbWf Cap s2 ∧ s2.sd = false ∧ rbContents Cap s2 = rbContents Cap s ++ l := by
  intro l
  induction l with
  | nil =>
    intro s s2 hwf hsd hpa
    simp only [rbPushAll, Option.some.injEq] at hpa
    subst hpa
    simp [hwf, hsd]
  | cons x r ih =>
    intro s s2 hwf hsd hpa
    by_cases hfull : rbFullTest Cap s
    · simp [rbPushAll, rbPush, hfull, hsd] at hpa
    · obtain ⟨s1, hpush, hwf1, hsd1, _, _, hc1⟩ := rbPush_ok Cap s x hwf hsd hfull
      simp only [rbPushAll, hpush] at hpa
      obtain ⟨hwf2, hsd2, hc2⟩ := ih s1 s2 hwf1 hsd1 hpa
      refine ⟨hwf2, hsd2, ?_⟩
      rw [hc2, hc1, List.append_assoc, List.singleton_append]

theorem rbPushAll_succeeds (Cap : Nat) :
    ∀ (l : List α) (s : RBState α), rbWf Cap s → s.sd = false →
    rbSize Cap s + l.length ≤ Cap - 1 →
    ∃ s2, rbPushAll Cap s l = some s2 := by
  intro l
  induction l with
  | nil =>
    intro s _ _ _
    exact ⟨s, rfl⟩
  | cons x r ih =>
    intro s hwf hsd hsz
    have hnf : ¬ rbFullTest Cap s := by
      rw [rbFull_iff Cap s hwf]
      simp only [List.length_cons] at hsz
      omega
    obtain ⟨s1, hpush, hwf1, hsd1, _, hsz1, _⟩ := rbPush_ok Cap s x hwf hsd hnf
    obtain ⟨s2, hpa⟩ := ih s1 hwf1 hsd1 (by simp only [List.length_cons] at hsz; omega)
    refine ⟨s2, ?_⟩
    simp only [rbPushAll, hpush, hpa]

/-- One queue operation issued by a client thread. -/
inductive RBOp (α : Type) where
  | doPush (x : α)
  | doPop
  | doShutdown

/-- Effect of one operation on the buffer state.  An operation that would
block (`none`) leaves the state unchanged: a blocked caller has not yet
mutated the cursors. -/
def rbStep (Cap : Nat) (s : RBState α) : RBOp α → RBState α
  | RBOp.doPush x =>
    match rbPush Cap s x with
    | some (s2, _) => s2
    | none => s
  | RBOp.doPop =>
    match rbPop Cap s with
    | some (s2, _) => s2
    | none => s
  | RBOp.doShutdown => rbShutdown s

/-- Run a sequence of queue operations from a given state. -/
def rbRun (Cap : Nat) (s : RBState α) (ops : List (RBOp α)) : RBState α :=
  ops.foldl (rbStep Cap) s

theorem rbStep_wf (Cap : Nat) (hCap : 0 < Cap) (s : RBState α) (op : RBOp α)
    (h : rbWf Cap s) : rbWf Cap (rbStep Cap s op) := by
  cases op with
  | doPush x =>
    by_cases hA : ¬ rbFullTest Cap s ∨ s.sd = true
    · by_cases hB : s.sd = true
      · simpa [rbStep, rbPush, hA, hB] using h
      · simp only [rbStep, rbPush, if_pos hA, if_neg hB]
        exact ⟨Nat.mod_lt _ hCap, h.2⟩
    · simpa [rbStep, rbPush, hA] using h
  | doPop =>
    by_cases hA : ¬ s.head = s.tail ∨ s.sd = true
    · by_cases hB : s.sd = true ∧ s.head = s.tail
      · simpa [rbStep, rbPop, hA, hB] using h
      · simp only [rbStep, rbPop, if_pos hA, if_neg hB]
        exact ⟨h.1, Nat.mod_lt _ hCap⟩
    · simpa [rbStep, rbPop, hA] using h
  | doShutdown => exact h

theorem rbRun_wf (Cap : Nat) (hCap : 0 < Cap) :
    ∀ (ops : List (RBOp α)) (s : RBState α), rbWf Cap s →
    rbWf Cap (rbRun Cap s ops) := by
  intro ops
  induction ops with
  | nil => intro s h; exact h
  | cons op rest ih =>
    intro s h
    exact ih (rbStep Cap s op) (rbStep_wf Cap hCap s op h)

/-- C4: for every sequence of at most `C-1` records, pushing them all onto a
fresh queue succeeds, and popping the same number of times returns exactly
the pushed records in push order (FIFO). -/
theorem claim_C4_queue_fifo (Cap : Nat) (hCap : 0 < Cap) (l : List Nat)
    (hlen : l.length ≤ Cap - 1) :
    ∃ s1 s2, rbPushAll Cap (rbFresh 0) l = some s1 ∧
      rbDrain Cap s1 l.length = some (s2, l) := by
  have hwf : rbWf Cap (rbFresh (0 : Nat)) := ⟨hCap, hCap⟩
  have hsd : (rbFresh (0 : Nat)).sd = false := rfl
  have hsz : rbSize Cap (rbFresh (0 : Nat)) = 0 := rfl
  obtain ⟨s1, hpa⟩ := rbPushAll_succeeds Cap l _ hwf hsd (by omega)
  obtain ⟨hwf1, hsd1, hc1⟩ := rbPushAll_sound Cap l _ s1 hwf hsd hpa
  have hc1l : rbContents Cap s1 = l := by
    rw [hc1]
    have : rbContents Cap (rbFresh (0 : Nat)) = [] := rfl
    rw [this, List.nil_append]
  obtain ⟨s2, hdr, _, _, _⟩ := rbDrain_contents Cap l s1 hwf1 hc1l
  exact ⟨s1, s2, hpa, hdr⟩

/-- Witness for C4: capacity 4, three records. -/
theorem claim_C4_queue_fifo_witness :
    0 < 4 ∧ ([1, 2, 3] : List Nat).length ≤ 4 - 1 ∧
    ∃ s1 s2, rbPushAll 4 (rbFresh 0) [1, 2, 3] = some s1 ∧
      rbDrain 4 s1 3 = some (s2, [1, 2, 3]) :=
  ⟨by decide, by decide, claim_C4_queue_fifo 4 (by decide) [1, 2, 3] (by decide)⟩

/-- C2: after `shutdown()` every push returns `false` without inserting;
from a fresh queue on which exactly the records of `l` were pushed (all
succeeding) and none popped, a shutdown is followed by exactly `l.length`
successful pops returning `l` in order, after which pop reports no data,
and pushes keep failing. -/
theorem claim_C2_shutdown_drain (Cap : Nat) (hCap : 0 < Cap) (l : List Nat)
    (hlen : l.length ≤ Cap - 1) :
    (∀ (s : RBState Nat) (x : Nat), s.sd = true → rbPush Cap s x = some (s, false)) ∧
    ∃ s1 s2, rbPushAll Cap (rbFresh 0) l = some s1 ∧
      rbDrain Cap (rbShutdown s1) l.length = some (s2, l) ∧
      rbPop Cap s2 = some (s2, none) ∧
      ∀ x, rbPush Cap s2 x = some (s2, false) := by
  have hpushF : ∀ (s : RBState Nat) (x : Nat), s.sd = true →
      rbPush Cap s x = some (s, false) := by
    intro s x hsd
    unfold rbPush
    rw [if_pos (Or.inr hsd), if_pos hsd]
  refine ⟨hpushF, ?_⟩
  have hwf : rbWf Cap (rbFresh (0 : Nat)) := ⟨hCap, hCap⟩
  have hsd : (rbFresh (0 : Nat)).sd = false := rfl
  have hsz : rbSize Cap (rbFresh (0 : Nat)) = 0 := rfl
  obtain ⟨s1, hpa⟩ := rbPushAll_succeeds Cap l _ hwf hsd (by omega)
  obtain ⟨hwf1, hsd1, hc1⟩ := rbPushAll_sound Cap l _ s1 hwf hsd hpa
  have hc1l : rbContents Cap (rbShutdown s1) = l := by
    show rbContents Cap s1 = l
    rw [hc1]
    have : rbContents Cap (rbFresh (0 : Nat)) = [] := rfl
    rw [this, List.nil_append]
  have hwfS : rbWf Cap (rbShutdown s1) := hwf1
  obtain ⟨s2, hdr, hwf2, hsd2, hc2⟩ := rbDrain_contents Cap l _ hwfS hc1l
  have hsd2T : s2.sd = true := hsd2
  have hht : s2.head = s2.tail := by
    have hlen2 := rbContents_length Cap s2
    rw [hc2] at hlen2
    exact (rbSize_zero_iff Cap s2 hwf2).mp hlen2.symm
  refine ⟨s1, s2, hpa, hdr, ?_, fun x => hpushF s2 x hsd2T⟩
  unfold rbPop
  rw [if_pos (Or.inr hsd2T), if_pos ⟨hsd2T, hht⟩]

/-- Witness for C2: capacity 4, two records pushed, then shutdown. -/
theorem claim_C2_shutdown_drain_witness :
    0 < 4 ∧ ([7, 8] : List Nat).length ≤ 4 - 1 ∧
    ((∀ (s : RBState Nat) (x : Nat), s.sd = true → rbPush 4 s x = some (s, false)) ∧
     ∃ s1 s2, rbPushAll 4 (rbFresh 0) [7, 8] = some s1 ∧
       rbDrain 4 (rbShutdown s1) 2 = some (s2, [7, 8]) ∧
       rbPop 4 s2 = some (s2, none) ∧
       ∀ x, rbPush 4 s2 x = some (s2, false)) :=
  ⟨by decide, by decide, claim_C2_shutdown_drain 4 (by decide) [7, 8] (by decide)⟩

/-- C3: from a fresh queue, no sequence of operations ever leaves more than
`C-1` live records; a non-shut-down queue holding exactly `C-1` records
blocks further pushes without inserting, and after one pop a push succeeds
again. -/
theorem claim_C3_capacity_bound (Cap : Nat) (hCap : 2 ≤ Cap) :
    (∀ ops : List (RBOp Nat), rbSize Cap (rbRun Cap (rbFresh 0) ops) ≤ Cap - 1) ∧
    (∀ (s : RBState Nat) (x : Nat), rbWf Cap s → s.sd = false →
      rbSize Cap s = Cap - 1 →
      rbPush Cap s x = none ∧
      ∃ s2 y, rbPop Cap s = some (s2, some y) ∧
        ∀ z, ∃ s3, rbPush Cap s2 z = some (s3, true)) := by
  have hCap0 : 0 < Cap := by omega
  constructor
  · intro ops
    have hwf := rbRun_wf Cap hCap0 ops (rbFresh 0) ⟨hCap0, hCap0⟩
    have := rbSize_lt Cap _ hwf
    omega
  · intro s x hwf hsd hsz
    have hfull : rbFullTest Cap s := (rbFull_iff Cap s hwf).mpr hsz
    constructor
    · unfold rbPush
      rw [if_neg (by simp [hfull, hsd])]
    · have hne : ¬ s.head = s.tail := by
        intro he
        have h0 : rbSize Cap s = 0 := (rbSize_zero_iff Cap s hwf).mpr he
        omega
      obtain ⟨s2, hpop, hwf2, hsd2, _, _, hszs, _⟩ := rbPop_ok Cap s hwf hne
      refine ⟨s2, s.buf s.tail, hpop, ?_⟩
      intro z
      have hnf2 : ¬ rbFullTest Cap s2 := by
        rw [rbFull_iff Cap s2 hwf2]
        omega
      obtain ⟨s3, hpush3, _⟩ :=
        rbPush_ok Cap s2 z hwf2 (by rw [hsd2]; exact hsd) hnf2
      exact ⟨s3, hpush3⟩

/-- Witness for C3: capacity 4, a state holding three live records. -/
theorem claim_C3_capacity_bound_witness :
    2 ≤ 4 ∧ rbSize 4 (rbRun 4 (rbFresh 0) [RBOp.doPush 5, RBOp.doPush 6]) ≤ 4 - 1 ∧
    (rbPush 4 (⟨fun _ => 0, 3, 0, false⟩ : RBState Nat) 9 = none ∧
     ∃ s2 y, rbPop 4 (⟨fun _ => 0, 3, 0, false⟩ : RBState Nat) = some (s2, some y) ∧
       ∀ z, ∃ s3, rbPush 4 s2 z = some (s3, true)) :=
  ⟨by decide,
   (claim_C3_capacity_bound 4 (by decide)).1 [RBOp.doPush 5, RBOp.doPush 6],
   (claim_C3_capacity_bound 4 (by decide)).2 ⟨fun _ => 0, 3, 0, false⟩ 9
     ⟨by decide, by decide⟩ rfl (by decide)⟩

/-- `DriverProfile` from `src/telemetry_data.h` (floats idealized as ℚ). -/
structure DriverProfile where
  aggression : ℚ
  consistency : ℚ
  tire_management : ℚ
  risk_tolerance : ℚ

/-- `CarProfile` from `src/telemetry_data.h` (floats idealized as ℚ). -/
structure CarProfile where
  engine_power : ℚ
  aero_efficiency : ℚ
  cooling_efficiency : ℚ
  reliability : ℚ

/-- `NUM_DRIVERS` from `src/telemetry_data.h`. -/
def numDrivers : Nat := 20

/-- `TRACK_LENGTH` (meters). -/
def trackLength : ℚ := 5000

/-- `DT = 1 / SIMULATION_HZ` (seconds per tick). -/
def simDT : ℚ := 1 / 50

/-- `BASE_SPEED_KMH`. -/
def baseSpeedKmh : ℚ := 200

/-- `TIRE_WEAR_BASE_RATE`. -/
def tireWearBaseRate : ℚ := (125/100000 : ℚ)

/-- `PIT_STOP_BASE_DURATION` (seconds). -/
def pitStopBaseDuration : ℚ := (25/10 : ℚ)

/-- `FLAG_IN_PITS`. -/
def flagInPits : Nat := 1

/-- The per-driver profile table from `RaceEngine::initialize_profiles`,
rows in driver-index order. -/
def driverProfile : Nat → DriverProfile
  | 0 => ⟨(85/100 : ℚ), (97/100 : ℚ), (90/100 : ℚ), (75/100 : ℚ)⟩
  | 1 => ⟨(78/100 : ℚ), (82/100 : ℚ), (75/100 : ℚ), (68/100 : ℚ)⟩
  | 2 => ⟨(92/100 : ℚ), (95/100 : ℚ), (87/100 : ℚ), (85/100 : ℚ)⟩
  | 3 => ⟨(76/100 : ℚ), (88/100 : ℚ), (82/100 : ℚ), (62/100 : ℚ)⟩
  | 4 => ⟨(84/100 : ℚ), (94/100 : ℚ), (88/100 : ℚ), (72/100 : ℚ)⟩
  | 5 => ⟨(72/100 : ℚ), (91/100 : ℚ), (86/100 : ℚ), (65/100 : ℚ)⟩
  | 6 => ⟨(88/100 : ℚ), (91/100 : ℚ), (84/100 : ℚ), (78/100 : ℚ)⟩
  | 7 => ⟨(80/100 : ℚ), (93/100 : ℚ), (89/100 : ℚ), (70/100 : ℚ)⟩
  | 8 => ⟨(86/100 : ℚ), (89/100 : ℚ), (83/100 : ℚ), (74/100 : ℚ)⟩
  | 9 => ⟨(74/100 : ℚ), (85/100 : ℚ), (80/100 : ℚ), (66/100 : ℚ)⟩
  | 10 => ⟨(89/100 : ℚ), (84/100 : ℚ), (79/100 : ℚ), (82/100 : ℚ)⟩
  | 11 => ⟨(81/100 : ℚ), (86/100 : ℚ), (81/100 : ℚ), (71/100 : ℚ)⟩
  | 12 => ⟨(87/100 : ℚ), (79/100 : ℚ), (76/100 : ℚ), (80/100 : ℚ)⟩
  | 13 => ⟨(83/100 : ℚ), (82/100 : ℚ), (78/100 : ℚ), (75/100 : ℚ)⟩
  | 14 => ⟨(77/100 : ℚ), (83/100 : ℚ), (82/100 : ℚ), (68/100 : ℚ)⟩
  | 15 => ⟨(75/100 : ℚ), (81/100 : ℚ), (80/100 : ℚ), (67/100 : ℚ)⟩
  | 16 => ⟨(82/100 : ℚ), (80/100 : ℚ), (77/100 : ℚ), (76/100 : ℚ)⟩
  | 17 => ⟨(79/100 : ℚ), (78/100 : ℚ), (75/100 : ℚ), (73/100 : ℚ)⟩
  | 18 => ⟨(80/100 : ℚ), (77/100 : ℚ), (74/100 : ℚ), (77/100 : ℚ)⟩
  | 19 => ⟨(76/100 : ℚ), (76/100 : ℚ), (73/100 : ℚ), (72/100 : ℚ)⟩
  | _ => ⟨0, 0, 0, 0⟩

/-- The ten team car profiles from `RaceEngine::initialize_profiles`. -/
def teamProfile : Nat → CarProfile
  | 0 => ⟨(95/100 : ℚ), (95/100 : ℚ), (92/100 : ℚ), (94/100 : ℚ)⟩
  | 1 => ⟨(93/100 : ℚ), (92/100 : ℚ), (90/100 : ℚ), (88/100 : ℚ)⟩
  | 2 => ⟨(91/100 : ℚ), (93/100 : ℚ), (91/100 : ℚ), (92/100 : ℚ)⟩
  | 3 => ⟨(94/100 : ℚ), (88/100 : ℚ), (89/100 : ℚ), (93/100 : ℚ)⟩
  | 4 => ⟨(87/100 : ℚ), (86/100 : ℚ), (87/100 : ℚ), (88/100 : ℚ)⟩
  | 5 => ⟨(84/100 : ℚ), (85/100 : ℚ), (83/100 : ℚ), (82/100 : ℚ)⟩
  | 6 => ⟨(83/100 : ℚ), (84/100 : ℚ), (85/100 : ℚ), (86/100 : ℚ)⟩
  | 7 => ⟨(80/100 : ℚ), (81/100 : ℚ), (82/100 : ℚ), (84/100 : ℚ)⟩
  | 8 => ⟨(78/100 : ℚ), (79/100 : ℚ), (81/100 : ℚ), (85/100 : ℚ)⟩
  | 9 => ⟨(76/100 : ℚ), (77/100 : ℚ), (80/100 : ℚ), (83/100 : ℚ)⟩
  | _ => ⟨0, 0, 0, 0⟩

/-- Car profile of driver `i`: two drivers per team, `team_idx = i / 2`. -/
def carProfile (i : Nat) : CarProfile := teamProfile (i / 2)

/-- Producer-private per-car state (`CarState` plus the `CarTelemetry`
fields the physics uses). -/
structure CarSim where
  distance : ℚ
  speed : ℚ
  position : Nat
  current_lap : Nat
  tire_wear : ℚ
  pit_threshold : ℚ
  in_pits : Bool
  pit_timer : ℚ
  pit_stops : Nat

/-- `std::clamp(v, lo, hi)`. -/
def clampQ (v lo hi : ℚ) : ℚ :=
  if v < lo then lo else if hi < v then hi else v

/-- Initial state of car `i` from `RaceEngine::initialize_race`: staggered
start `-25 * i` meters, grid position `i + 1`, lap 1, fresh tires, and the
pit threshold computed from the driver profile then clamped to
`[0.6, 0.95]`. -/
def initCar (i : Nat) : CarSim :=
  let d := driverProfile i
  { distance := -25 * (i : ℚ)
    speed := 0
    position := i + 1
    current_lap := 1
    tire_wear := 0
    pit_threshold :=
      clampQ ((65/100 : ℚ) + d.tire_management * (25/100 : ℚ) + (d.risk_tolerance - (5/10 : ℚ)) * (15/100 : ℚ)) (6/10 : ℚ) (95/100 : ℚ)
    in_pits := false
    pit_timer := 0
    pit_stops := 0 }

/-- Whether this tick's `update_car_physics` for the car reaches the speed
computation, and hence consumes one value from the shared random stream:
it does exactly when the car is on track and below its pit threshold. -/
def needsDraw (c : CarSim) : Bool :=
  !c.in_pits && decide (c.tire_wear < c.pit_threshold)

/-- `RaceEngine::update_car_physics`, with the single `speed_dist(rng_)`
draw of the on-track branch passed in as `u` (the other branches return
before drawing).  Branches in source order: in-pits countdown/exit, pit
entry when wear reaches the threshold, and the wear/speed/distance/lap
update. -/
def physicsStep (d : DriverProfile) (p : CarProfile) (u : ℚ) (c : CarSim) : CarSim :=
  if c.in_pits then
    let t := c.pit_timer - simDT
    if t ≤ 0 then
      { c with pit_timer := t, in_pits := false, tire_wear := 0,
               pit_stops := c.pit_stops + 1, speed := 0 }
    else
      { c with pit_timer := t, speed := 0 }
  else if c.pit_threshold ≤ c.tire_wear then
    { c with in_pits := true,
             pit_timer := pitStopBaseDuration + (1 - p.reliability) * (5/10 : ℚ) }
  else
    let wear_rate := tireWearBaseRate * (1 + d.aggression * (5/10 : ℚ)) * (1 - d.tire_management * (3/10 : ℚ))
    let w := min (c.tire_wear + wear_rate * simDT) 1
    let driver_skill := (80/100 : ℚ) + d.consistency * (25/100 : ℚ)
    let base_speed := baseSpeedKmh * p.engine_power * driver_skill
    let tire_factor := 1 - w * (3/10 : ℚ)
    let sp := max (base_speed * tire_factor + u * (1 - d.consistency)) 50
    let dist := c.distance + (sp / (36/10 : ℚ)) * simDT
    let lap := if trackLength * (c.current_lap : ℚ) ≤ dist
               then c.current_lap + 1 else c.current_lap
    { c with tire_wear := w, speed := sp, distance := dist, current_lap := lap }

/-- Update every car in index order, threading the random-stream index:
each car that reaches the speed computation consumes exactly one draw.
The input list pairs each car with its index (profiles are fixed by
index; the cars list itself is never permuted). -/
def updateCarsAux (R : Nat → ℚ) : Nat → List (Nat × CarSim) → List CarSim × Nat
  | k, [] => ([], k)
  | k, (i, c) :: rest =>
    let kd := if needsDraw c then (R k, k + 1) else (0, k)
    let c2 := physicsStep (driverProfile i) (carProfile i) kd.1 c
    let r := updateCarsAux R kd.2 rest
    (c2 :: r.1, r.2)

/-- `RaceEngine::update_race_order`: positions are ranks (plus one) in the
descending order of `distance`.  The source sorts with `std::sort`, whose
order on equal keys is unspecified; here ties are ranked in index order,
one outcome `std::sort` permits (the tie behavior is analyzed separately
for claim C8). -/
def reorderCars (cars : List CarSim) : List CarSim :=
  let ds := cars.map (fun c => c.distance)
  cars.enum.map (fun ic =>
    { ic.2 with position :=
        (ds.filter (fun e => ic.2.distance < e)).length
          + ((ds.take ic.1).filter (fun e => e = ic.2.distance)).length + 1 })

/-- Producer-owned race clock and car states (`RaceState` plus the engine's
`tick_count_` and the next unconsumed index of the shared random stream). -/
structure SimState where
  cars : List CarSim
  tick_count : Nat
  race_time : ℚ
  rngIdx : Nat

/-- State after `RaceEngine::initialize_race`. -/
def initSimState : SimState :=
  ⟨(List.range numDrivers).map initCar, 0, 0, 0⟩

/-- `RaceEngine::update_simulation`: advance the clock, update each car in
index order, then recompute race order. -/
def tickSim (R : Nat → ℚ) (st : SimState) : SimState :=
  let res := updateCarsAux R st.rngIdx st.cars.enum
  { cars := reorderCars res.1
    tick_count := st.tick_count + 1
    race_time := st.race_time + simDT
    rngIdx := res.2 }

/-- One emitted telemetry record (`TelemetryFrame` from
`src/telemetry_data.h`).  `sector_times` is the `[u32; 3]` triple. -/
structure TFrame where
  timestamp_ms : Nat
  driver_id : Nat
  position : Nat
  lap : Nat
  sector : Nat
  speed : ℚ
  distance : ℚ
  throttle : ℚ
  tire_wear : ℚ
  pit_stops : Nat
  pit_timer : ℚ
  gap_to_leader : ℚ
  flags : Nat
  sector_times : Nat × Nat × Nat
  last_lap_time : Nat
deriving DecidableEq

/-- `RaceEngine::calculate_sector`. -/
def calcSector (distance : ℚ) (lap : Nat) : Nat :=
  let lap_distance := distance - trackLength * ((lap : ℚ) - 1)
  let sector_length := trackLength / 3
  if lap_distance < sector_length then 0
  else if lap_distance < sector_length * 2 then 1
  else 2

/-- `RaceEngine::create_frame`.  The frame is value-initialized
(`TelemetryFrame frame{}`) and only the fields listed in the source are
assigned; `pit_stops`, `pit_timer`, `gap_to_leader`, `sector_times` and
`last_lap_time` keep their zero initialization. -/
def createFrame (race_time : ℚ) (car_idx : Nat) (c : CarSim) : TFrame :=
  { timestamp_ms := (race_time * 1000).floor.toNat
    driver_id := car_idx
    position := c.position
    lap := c.current_lap
    sector := calcSector c.distance c.current_lap
    speed := c.speed
    distance := c.distance
    throttle := if c.in_pits then 0 else 1
    tire_wear := c.tire_wear * 100
    pit_stops := 0
    pit_timer := 0
    gap_to_leader := 0
    flags := if c.in_pits then flagInPits else 0
    sector_times := (0, 0, 0)
    last_lap_time := 0 }

/-- `RaceEngine::is_race_complete`: some car currently in position 1 has
`current_lap > total_laps`. -/
def isRaceComplete (laps : Nat) (cars : List CarSim) : Bool :=
  cars.any (fun c => decide (c.position = 1 ∧ laps < c.current_lap))

/-- The per-tick push loop of `RaceEngine::run`: one frame per car in index
order.  `orc` gives the result of each `RingBuffer::push` call (indexed by a
global push counter); a failed push emits nothing and aborts the loop, as
the source returns immediately. -/
def pushFramesAux (orc : Nat → Bool) (rt : ℚ) : Nat → List (Nat × CarSim) → List TFrame × Nat × Bool
  | k, [] => ([], k, true)
  | k, (i, c) :: rest =>
    if orc k then
      let r := pushFramesAux orc rt (k + 1) rest
      (createFrame rt i c :: r.1, r.2)
    else ([], k + 1, false)

/-- Outcome of `RaceEngine::run`: the successfully pushed frames, whether
any `RingBuffer::shutdown` call was made by the engine (the source contains
no such call on any path, which `claim_C5` examines), and whether the loop
stopped because `is_race_complete` held. -/
structure RunResult where
  frames : List TFrame
  shutdownCalled : Bool
  completed : Bool

/-- The loop body of `RaceEngine::run`, with `fuel` bounding the number of
ticks (the external stop signal is modelled as exhausting the fuel): tick,
push one frame per car (stopping on a failed push), then check completion
and either stop — storing `true` — or recurse. -/
def runFullAux (R : Nat → ℚ) (laps : Nat) (orc : Nat → Bool) :
    Nat → Nat → SimState → RunResult
  | 0, _, _ => ⟨[], false, false⟩
  | fuel + 1, pushIdx, st =>
    let st2 := tickSim R st
    let pr := pushFramesAux orc st2.race_time pushIdx st2.cars.enum
    if pr.2.2 = false then ⟨pr.1, false, false⟩
    else if isRaceComplete laps st2.cars then ⟨pr.1, false, true⟩
    else
      let r := runFullAux R laps orc fuel pr.2.1 st2
      ⟨pr.1 ++ r.frames, r.shutdownCalled, r.completed⟩

/-- `RaceEngine::run` from a freshly initialized engine. -/
def simRun (R : Nat → ℚ) (laps : Nat) (orc : Nat → Bool) (fuel : Nat) : RunResult :=
  runFullAux R laps orc fuel 0 initSimState

theorem updateCarsAux_length (R : Nat → ℚ) :
    ∀ (l : List (Nat × CarSim)) (k : Nat), ((updateCarsAux R k l).1).length = l.length := by
  intro l
  induction l with
  | nil => intro k; rfl
  | cons ic rest ih =>
    intro k
    obtain ⟨i, c⟩ := ic
    simp only [updateCarsAux, List.length_cons]
    rw [ih]

theorem reorderCars_length (cars : List CarSim) :
    (reorderCars cars).length = cars.length := by
  simp [reorderCars]

theorem tickSim_cars_length (R : Nat → ℚ) (st : SimState) :
    (tickSim R st).cars.length = st.cars.length := by
  show (reorderCars (updateCarsAux R st.rngIdx st.cars.enum).1).length = st.cars.length
  rw [reorderCars_length, updateCarsAux_length, List.enum_length]

theorem pushFramesAux_length (orc : Nat → Bool) (rt : ℚ) :
    ∀ (l : List (Nat × CarSim)) (k : Nat),
    ((pushFramesAux orc rt k l).1).length ≤ l.length := by
  intro l
  induction l with
  | nil => intro k; simp [pushFramesAux]
  | cons ic rest ih =>
    intro k
    obtain ⟨i, c⟩ := ic
    by_cases h : orc k = true
    · simp only [pushFramesAux, if_pos h, List.length_cons]
      exact Nat.succ_le_succ (ih (k + 1))
    · simp only [pushFramesAux, if_neg h, List.length_cons, List.length_nil]
      omega

theorem runFullAux_no_shutdown (R : Nat → ℚ) (laps : Nat) (orc : Nat → Bool) :
    ∀ (fuel k : Nat) (st : SimState),
    (runFullAux R laps orc fuel k st).shutdownCalled = false := by
  intro fuel
  induction fuel with
  | zero => intro k st; rfl
  | succ fuel ih =>
    intro k st
    by_cases h1 : (pushFramesAux orc (tickSim R st).race_time k (tickSim R st).cars.enum).2.2 = false
    · simp [runFullAux, h1]
    · by_cases h2 : isRaceComplete laps (tickSim R st).cars = true
      · simp [runFullAux, h1, h2]
      · simp [runFullAux, h1, h2, ih]

theorem runFullAux_complete_le (R : Nat → ℚ) (laps : Nat) (orc : Nat → Bool) :
    ∀ (fuel m k : Nat) (st : SimState), st.cars.length = numDrivers →
    isRaceComplete laps (((tickSim R)^[m + 1]) st).cars = true →
    ((runFullAux R laps orc fuel k st).frames).length ≤ numDrivers * (m + 1) := by
  intro fuel
  induction fuel with
  | zero =>
    intro m k st _ _
    simp [runFullAux]
  | succ fuel ih =>
    intro m k st hlen hc
    have hlen2 : (tickSim R st).cars.length = numDrivers := by
      rw [tickSim_cars_length]; exact hlen
    have hemit : ((pushFramesAux orc (tickSim R st).race_time k (tickSim R st).cars.enum).1).length ≤ numDrivers := by
      have := pushFramesAux_length orc (tickSim R st).race_time (tickSim R st).cars.enum k
      rwa [List.enum_length, hlen2] at this
    have hone : numDrivers ≤ numDrivers * (m + 1) :=
      Nat.le_mul_of_pos_right _ (Nat.succ_pos m)
    by_cases h1 : (pushFramesAux orc (tickSim R st).race_time k (tickSim R st).cars.enum).2.2 = false
    · simp only [runFullAux, if_pos h1]
      exact le_trans hemit hone
    · by_cases h2 : isRaceComplete laps (tickSim R st).cars = true
      · simp only [runFullAux, if_neg h1, if_pos h2]
        exact le_trans hemit hone
      · cases m with
        | zero =>
          rw [Function.iterate_one] at hc
          exact absurd hc h2
        | succ m2 =>
          have hc2 : isRaceComplete laps (((tickSim R)^[m2 + 1]) (tickSim R st)).cars = true := by
            rw [← Function.iterate_succ_apply]
            exact hc
          have hrec := ih m2
            (pushFramesAux orc (tickSim R st).race_time k (tickSim R st).cars.enum).2.1
            (tickSim R st) hlen2 hc2
          simp only [runFullAux, if_neg h1, if_neg h2, List.length_append]
          have hs := Nat.add_le_add hemit hrec
          rw [Nat.mul_succ]
          omega

/-- C1: for a fixed seed (abstracted as the deterministic stream `R` the
seeded generator produces) and lap count, the sequence of emitted records
is the same across runs: the run result depends only on `(R, laps, fuel)`
and not on the queue interaction, as long as no push fails (no shutdown).
The stream is consumed in entity-index order each tick by construction of
`updateCarsAux`. -/
theorem claim_C1_determinism (R : Nat → ℚ) (laps fuel : Nat)
    (orc1 orc2 : Nat → Bool)
    (h1 : ∀ n, orc1 n = true) (h2 : ∀ n, orc2 n = true) :
    simRun R laps orc1 fuel = simRun R laps orc2 fuel := by
  have he : orc1 = orc2 := funext fun n => (h1 n).trans (h2 n).symm
  rw [he]

/-- Witness for C1 at a concrete stream, lap count and fuel. -/
theorem claim_C1_determinism_witness :
    (∀ n : Nat, (fun _ : Nat => true) n = true) ∧
    simRun (fun _ => 0) 1 (fun _ => true) 2 = simRun (fun _ => 0) 1 (fun _ => true) 2 :=
  ⟨fun _ => rfl,
   claim_C1_determinism (fun _ => 0) 1 2 (fun _ => true) (fun _ => true)
     (fun _ => rfl) (fun _ => rfl)⟩

set_option maxRecDepth 100000

/-- C5 counterexample: a run that completes naturally (here `laps = 0`, so
the completion predicate holds at the first post-tick check, after the
tick's 20 records) stops — but the engine makes no queue-shutdown call,
contrary to the claim that the producer requests queue shutdown on natural
completion: `RaceEngine::run` only sets the stop flag and breaks. -/
theorem claim_C5_counterexample :
    (simRun (fun _ => 0) 0 (fun _ => true) 2).completed = true ∧
    (simRun (fun _ => 0) 0 (fun _ => true) 2).shutdownCalled = false ∧
    ((simRun (fun _ => 0) 0 (fun _ => true) 2).frames).length = 20 :=
  of_decide_eq_true (by with_unfolding_all rfl)

/-- C5 (amended): when the completion predicate first holds at a post-tick
check, the producer halts — no record of any later tick is emitted (the
emitted records never exceed 20 per tick up to the first completing tick) —
but the producer never requests queue shutdown; stopping is signalled only
through the external stop flag. -/
theorem claim_C5_halt_no_shutdown (R : Nat → ℚ) (laps fuel : Nat) (orc : Nat → Bool) :
    (simRun R laps orc fuel).shutdownCalled = false ∧
    ∀ m : Nat, isRaceComplete laps (((tickSim R)^[m + 1]) initSimState).cars = true →
      ((simRun R laps orc fuel).frames).length ≤ numDrivers * (m + 1) := by
  constructor
  · exact runFullAux_no_shutdown R laps orc fuel 0 initSimState
  · intro m hm
    exact runFullAux_complete_le R laps orc fuel m 0 initSimState rfl hm

/-- Witness for C5 (amended): with `laps = 0` completion holds after one
tick, and the run emits at most 20 records. -/
theorem claim_C5_halt_no_shutdown_witness :
    isRaceComplete 0 (((tickSim (fun _ => 0))^[0 + 1]) initSimState).cars = true ∧
    ((simRun (fun _ => 0) 0 (fun _ => true) 5).frames).length ≤ numDrivers * (0 + 1) :=
  ⟨of_decide_eq_true (by with_unfolding_all rfl),
   (claim_C5_halt_no_shutdown (fun _ => 0) 0 5 (fun _ => true)).2 0
     (of_decide_eq_true (by with_unfolding_all rfl))⟩

/-- C6: the per-car pit state machine.  In pits: the timer decreases by
`dt`; at `<= 0` the car exits (wear reset, stop count incremented), speed is
forced to 0 and distance is untouched.  On track at or above the pit
threshold: the car enters the pits with timer `2.5 + (1 - reliability)*0.5`
and no other field changes (no motion this tick). -/
theorem claim_C6_pit_state_machine (d : DriverProfile) (p : CarProfile)
    (u : ℚ) (c : CarSim) :
    (c.in_pits = true →
      (physicsStep d p u c).speed = 0 ∧
      (physicsStep d p u c).distance = c.distance ∧
      (physicsStep d p u c).pit_timer = c.pit_timer - simDT ∧
      (physicsStep d p u c).tire_wear =
        (if c.pit_timer - simDT ≤ 0 then 0 else c.tire_wear) ∧
      (physicsStep d p u c).in_pits =
        (if c.pit_timer - simDT ≤ 0 then false else true) ∧
      (physicsStep d p u c).pit_stops =
        (if c.pit_timer - simDT ≤ 0 then c.pit_stops + 1 else c.pit_stops)) ∧
    (c.in_pits = false → c.pit_threshold ≤ c.tire_wear →
      physicsStep d p u c =
        { c with in_pits := true,
                 pit_timer := pitStopBaseDuration + (1 - p.reliability) * (5/10 : ℚ) }) := by
  constructor
  · intro h
    by_cases ht : c.pit_timer - simDT ≤ 0 <;>
      simp [physicsStep, h, ht]
  · intro h hth
    simp [physicsStep, h, hth]

/-- Witness for C6: a car one tick from pit exit, and a car at its pit
threshold. -/
theorem claim_C6_pit_state_machine_witness :
    (⟨100, 0, 1, 1, 1/2, 3/4, true, 1/100, 0⟩ : CarSim).in_pits = true ∧
    (physicsStep (driverProfile 0) (carProfile 0) 0
      ⟨100, 0, 1, 1, 1/2, 3/4, true, 1/100, 0⟩).speed = 0 ∧
    (physicsStep (driverProfile 0) (carProfile 0) 0
      ⟨100, 0, 1, 1, 1/2, 3/4, true, 1/100, 0⟩).pit_stops =
      (if (1/100 : ℚ) - simDT ≤ 0 then 0 + 1 else 0) ∧
    ((9/10 : ℚ) ≥ (3/4 : ℚ)) ∧
    physicsStep (driverProfile 0) (carProfile 0) 0
      (⟨100, 0, 1, 1, 9/10, 3/4, false, 0, 0⟩ : CarSim) =
      { (⟨100, 0, 1, 1, 9/10, 3/4, false, 0, 0⟩ : CarSim) with
          in_pits := true,
          pit_timer := pitStopBaseDuration + (1 - (carProfile 0).reliability) * (5/10 : ℚ) } :=
  ⟨rfl,
   ((claim_C6_pit_state_machine (driverProfile 0) (carProfile 0) 0
      ⟨100, 0, 1, 1, 1/2, 3/4, true, 1/100, 0⟩).1 rfl).1,
   ((claim_C6_pit_state_machine (driverProfile 0) (carProfile 0) 0
      ⟨100, 0, 1, 1, 1/2, 3/4, true, 1/100, 0⟩).1 rfl).2.2.2.2.2,
   of_decide_eq_true (by with_unfolding_all rfl),
   (claim_C6_pit_state_machine (driverProfile 0) (carProfile 0) 0
      ⟨100, 0, 1, 1, 9/10, 3/4, false, 0, 0⟩).2 rfl
      (of_decide_eq_true (by with_unfolding_all rfl))⟩

/-- C7: the on-track, below-threshold tick update.  Wear becomes
`min(1, wear + 0.00125*(1 + aggression*0.5)*(1 - tireManagement*0.3)*dt)`
and stays in `[0, 1]`; speed becomes
`max(50, 200*enginePower*(0.80 + consistency*0.25)*(1 - wear*0.3) + u*(1 - consistency))`
for the single stream draw `u` (the draw lies in `[-5, 5]`, but the update
law holds for any `u`); distance grows by `(speed/3.6)*dt`; the lap
increments by one when the new distance reaches `trackLength * lap`. -/
theorem claim_C7_ontrack_update (d : DriverProfile) (p : CarProfile)
    (u : ℚ) (c : CarSim)
    (hpit : c.in_pits = false) (hth : c.tire_wear < c.pit_threshold)
    (hw0 : 0 ≤ c.tire_wear) (hw1 : c.tire_wear ≤ 1)
    (ha0 : 0 ≤ d.aggression) (ha1 : d.aggression ≤ 1)
    (htm0 : 0 ≤ d.tire_management) (htm1 : d.tire_management ≤ 1) :
    (physicsStep d p u c).tire_wear =
      min 1 (c.tire_wear + tireWearBaseRate * (1 + d.aggression * (5/10 : ℚ))
        * (1 - d.tire_management * (3/10 : ℚ)) * simDT) ∧
    0 ≤ (physicsStep d p u c).tire_wear ∧ (physicsStep d p u c).tire_wear ≤ 1 ∧
    (physicsStep d p u c).speed =
      max 50 (baseSpeedKmh * p.engine_power * ((80/100 : ℚ) + d.consistency * (25/100 : ℚ))
        * (1 - (physicsStep d p u c).tire_wear * (3/10 : ℚ)) + u * (1 - d.consistency)) ∧
    (physicsStep d p u c).distance =
      c.distance + ((physicsStep d p u c).speed / (36/10 : ℚ)) * simDT ∧
    (physicsStep d p u c).current_lap =
      (if trackLength * (c.current_lap : ℚ) ≤ (physicsStep d p u c).distance
       then c.current_lap + 1 else c.current_lap) := by
  have hnle : ¬ c.pit_threshold ≤ c.tire_wear := not_le.mpr hth
  have hb : (0 : ℚ) ≤ tireWearBaseRate := by
    unfold tireWearBaseRate; norm_num
  have hdt : (0 : ℚ) ≤ simDT := by
    unfold simDT; norm_num
  have hr1 : (0 : ℚ) ≤ 1 + d.aggression * (5/10 : ℚ) := by nlinarith
  have hr2 : (0 : ℚ) ≤ 1 - d.tire_management * (3/10 : ℚ) := by nlinarith
  have hr : (0 : ℚ) ≤ tireWearBaseRate * (1 + d.aggression * (5/10 : ℚ))
      * (1 - d.tire_management * (3/10 : ℚ)) * simDT :=
    mul_nonneg (mul_nonneg (mul_nonneg hb hr1) hr2) hdt
  refine ⟨?_, ?_, ?_, ?_, ?_, ?_⟩
  · simp [physicsStep, hpit, hnle, min_comm]
  · simp only [physicsStep, hpit, Bool.false_eq_true, if_false, if_neg hnle]
    exact le_min (by linarith) (by norm_num)
  · simp only [physicsStep, hpit, Bool.false_eq_true, if_false, if_neg hnle]
    exact min_le_right _ _
  · simp [physicsStep, hpit, hnle, max_comm]
  · simp [physicsStep, hpit, hnle]
  · simp [physicsStep, hpit, hnle]

/-- Witness for C7: driver 0 in car 0 at the initial state, draw `u = 0`. -/
theorem claim_C7_ontrack_update_witness :
    (initCar 0).in_pits = false ∧ (initCar 0).tire_wear < (initCar 0).pit_threshold ∧
    (physicsStep (driverProfile 0) (carProfile 0) 0 (initCar 0)).tire_wear =
      min 1 ((initCar 0).tire_wear + tireWearBaseRate
        * (1 + (driverProfile 0).aggression * (5/10 : ℚ))
        * (1 - (driverProfile 0).tire_management * (3/10 : ℚ)) * simDT) ∧
    0 ≤ (physicsStep (driverProfile 0) (carProfile 0) 0 (initCar 0)).tire_wear ∧
    (physicsStep (driverProfile 0) (carProfile 0) 0 (initCar 0)).tire_wear ≤ 1 :=
  have h := claim_C7_ontrack_update (driverProfile 0) (carProfile 0) 0 (initCar 0)
    rfl (of_decide_eq_true (by with_unfolding_all rfl))
    (of_decide_eq_true (by with_unfolding_all rfl))
    (of_decide_eq_true (by with_unfolding_all rfl))
    (of_decide_eq_true (by with_unfolding_all rfl))
    (of_decide_eq_true (by with_unfolding_all rfl))
    (of_decide_eq_true (by with_unfolding_all rfl))
    (of_decide_eq_true (by with_unfolding_all rfl))
  ⟨rfl, of_decide_eq_true (by with_unfolding_all rfl), h.1, h.2.1, h.2.2.1⟩

/-- The pit annotation of `TelemetryUI::render_driver_row`: when the
record's `IN_PITS` flag is set, the UI prints the record's `pit_timer`
field as the remaining pit time. -/
def pitDisplay (f : TFrame) : Option ℚ :=
  if Nat.land f.flags flagInPits ≠ 0 then some f.pit_timer else none

/-- The record fields `create_frame` leaves at their zero initialization. -/
def frameZeroFields (f : TFrame) : Bool :=
  decide (f.pit_timer = 0 ∧ f.gap_to_leader = 0 ∧
    f.sector_times = (0, 0, 0) ∧ f.last_lap_time = 0)

theorem pushFramesAux_mem (orc : Nat → Bool) (rt : ℚ) :
    ∀ (l : List (Nat × CarSim)) (k : Nat) (f : TFrame),
    f ∈ (pushFramesAux orc rt k l).1 → ∃ i c, f = createFrame rt i c := by
  intro l
  induction l with
  | nil => intro k f h; simp [pushFramesAux] at h
  | cons ic rest ih =>
    intro k f h
    obtain ⟨i, c⟩ := ic
    by_cases ho : orc k = true
    · simp only [pushFramesAux, if_pos ho, List.mem_cons] at h
      rcases h with h | h
      · exact ⟨i, c, h⟩
      · exact ih (k + 1) f h
    · simp [pushFramesAux, if_neg ho] at h

theorem runFullAux_mem (R : Nat → ℚ) (laps : Nat) (orc : Nat → Bool) :
    ∀ (fuel k : Nat) (st : SimState) (f : TFrame),
    f ∈ (runFullAux R laps orc fuel k st).frames →
    ∃ rt i c, f = createFrame rt i c := by
  intro fuel
  induction fuel with
  | zero => intro k st f h; simp [runFullAux] at h
  | succ fuel ih =>
    intro k st f h
    by_cases h1 : (pushFramesAux orc (tickSim R st).race_time k (tickSim R st).cars.enum).2.2 = false
    · simp only [runFullAux, if_pos h1] at h
      obtain ⟨i, c, he⟩ := pushFramesAux_mem orc _ _ k f h
      exact ⟨_, i, c, he⟩
    · by_cases h2 : isRaceComplete laps (tickSim R st).cars = true
      · simp only [runFullAux, if_neg h1, if_pos h2] at h
        obtain ⟨i, c, he⟩ := pushFramesAux_mem orc _ _ k f h
        exact ⟨_, i, c, he⟩
      · simp only [runFullAux, if_neg h1, if_neg h2, List.mem_append] at h
        rcases h with h | h
        · obtain ⟨i, c, he⟩ := pushFramesAux_mem orc _ _ k f h
          exact ⟨_, i, c, he⟩
        · exact ih _ _ f h

/-- C10: every record the producer emits has `gap_to_leader = 0`,
`sector_times = (0,0,0)`, `last_lap_time = 0` and `pit_timer = 0`
(`create_frame` never copies the producer's per-car pit countdown, nor
`pit_stops`), including records whose `IN_PITS` flag is set — for which the
renderer nevertheless displays the record's `pit_timer` field (always 0) as
the remaining pit time. -/
theorem claim_C10_unpopulated_fields :
    (∀ (rt : ℚ) (i : Nat) (c : CarSim),
      (createFrame rt i c).gap_to_leader = 0 ∧
      (createFrame rt i c).sector_times = (0, 0, 0) ∧
      (createFrame rt i c).last_lap_time = 0 ∧
      (createFrame rt i c).pit_timer = 0 ∧
      (createFrame rt i c).pit_stops = 0 ∧
      (c.in_pits = true →
        (createFrame rt i c).flags = flagInPits ∧
        pitDisplay (createFrame rt i c) = some 0)) ∧
    ∀ (R : Nat → ℚ) (laps : Nat) (orc : Nat → Bool) (fuel : Nat),
      ((simRun R laps orc fuel).frames).all frameZeroFields = true := by
  constructor
  · intro rt i c
    refine ⟨rfl, rfl, rfl, rfl, rfl, ?_⟩
    intro h
    constructor
    · simp [createFrame, h]
    · simp [pitDisplay, createFrame, h, flagInPits]
  · intro R laps orc fuel
    rw [List.all_eq_true]
    intro f hf
    obtain ⟨rt, i, c, he⟩ := runFullAux_mem R laps orc fuel 0 initSimState f hf
    subst he
    simp [frameZeroFields, createFrame]

/-- Witness for C10: an in-pits car whose emitted record carries a zero
pit timer, which is what the renderer would display. -/
theorem claim_C10_unpopulated_fields_witness :
    ({ initCar 0 with in_pits := true } : CarSim).in_pits = true ∧
    (createFrame 0 0 { initCar 0 with in_pits := true }).pit_timer = 0 ∧
    pitDisplay (createFrame 0 0 { initCar 0 with in_pits := true }) = some 0 :=
  ⟨rfl,
   (claim_C10_unpopulated_fields.1 0 0 { initCar 0 with in_pits := true }).2.2.2.1,
   ((claim_C10_unpopulated_fields.1 0 0 { initCar 0 with in_pits := true }).2.2.2.2.2 rfl).2⟩

/-- The postcondition `std::sort` guarantees for the index sort in
`RaceEngine::update_race_order`: the result is a permutation of the indices
`0..19` along which distances are non-increasing (comparator
`distance a > distance b`).  `std::sort` leaves the relative order of
equal-key elements unspecified, so every list satisfying this predicate is
an outcome the source may produce. -/
def validSortOutcome (dist : Nat → ℚ) (perm : List Nat) : Prop :=
  perm.Perm (List.range numDrivers) ∧
  perm.Pairwise (fun a b => dist b ≤ dist a)

instance (dist : Nat → ℚ) (perm : List Nat) :
    Decidable (validSortOutcome dist perm) := by
  unfold validSortOutcome; infer_instance

/-- The position assignment of `update_race_order` along a sorted index
list: the car at rank `r` receives position `r + 1`, so car `c` receives
one plus its index in the sorted list. -/
def positionsFromSort (perm : List Nat) (c : Nat) : Nat :=
  perm.indexOf c + 1

/-- C8 counterexample: cars 0 and 1 tie on distance, and the sorted-index
list placing car 1 before car 0 is a valid `std::sort` outcome (sorted
descending, a permutation), yet it assigns car 1 a smaller position than
car 0 — so equal-distance entities are not guaranteed to keep their
relative index order ("stable-sort" is not what `std::sort` provides). -/
theorem claim_C8_counterexample :
    validSortOutcome (fun i => if i ≤ 1 then 1 else 0)
      [1, 0, 2, 3, 4, 5, 6, 7, 8, 9, 10, 11, 12, 13, 14, 15, 16, 17, 18, 19] ∧
    (fun i => if i ≤ 1 then (1 : ℚ) else 0) 0 = (fun i => if i ≤ 1 then (1 : ℚ) else 0) 1 ∧
    positionsFromSort [1, 0, 2, 3, 4, 5, 6, 7, 8, 9, 10, 11, 12, 13, 14, 15, 16, 17, 18, 19] 1
      < positionsFromSort [1, 0, 2, 3, 4, 5, 6, 7, 8, 9, 10, 11, 12, 13, 14, 15, 16, 17, 18, 19] 0 :=
  of_decide_eq_true (by with_unfolding_all rfl)

theorem map_indexOf_self :
    ∀ (l : List Nat), l.Nodup → l.map (fun c => l.indexOf c) = List.range l.length := by
  intro l
  induction l with
  | nil => intro _; rfl
  | cons a t ih =>
    intro hnd
    have hna : a ∉ t := (List.nodup_cons.mp hnd).1
    have hndt : t.Nodup := (List.nodup_cons.mp hnd).2
    simp only [List.map_cons, List.indexOf_cons_self, List.length_cons]
    have hmap : t.map (fun c => (a :: t).indexOf c) = t.map (fun c => t.indexOf c + 1) := by
      apply List.map_congr_left
      intro x hx
      have hxa : a ≠ x := fun he => hna (he ▸ hx)
      simpa using List.indexOf_cons_ne t hxa
    rw [hmap, List.range_succ_eq_map]
    have : t.map (fun c => t.indexOf c + 1) = (t.map (fun c => t.indexOf c)).map Nat.succ := by
      rw [List.map_map]; rfl
    rw [this, ih hndt]

/-- C8 (amended): for every outcome `std::sort` may produce for
`update_race_order` (a sorted-descending permutation of the 20 indices —
tie order unspecified), the assigned positions are a permutation of
`1..20`, and a strictly better position implies a distance at least as
large; preservation of index order among equal distances is not
guaranteed. -/
theorem claim_C8_sort_positions (dist : Nat → ℚ) (perm : List Nat)
    (h : validSortOutcome dist perm) :
    ((List.range numDrivers).map (positionsFromSort perm)).Perm
      ((List.range numDrivers).map (fun r => r + 1)) ∧
    ∀ a b, a ∈ List.range numDrivers → b ∈ List.range numDrivers →
      positionsFromSort perm a < positionsFromSort perm b → dist b ≤ dist a := by
  obtain ⟨hperm, hsorted⟩ := h
  have hnd : perm.Nodup := hperm.symm.nodup (List.nodup_range numDrivers)
  have hlen : perm.length = numDrivers := by
    have := hperm.length_eq
    simpa using this
  constructor
  · have h1 : ((List.range numDrivers).map (positionsFromSort perm)).Perm
        (perm.map (positionsFromSort perm)) := (hperm.symm.map _)
    have h2 : perm.map (positionsFromSort perm) =
        (List.range numDrivers).map (fun r => r + 1) := by
      unfold positionsFromSort
      have : perm.map (fun c => perm.indexOf c + 1) =
          (perm.map (fun c => perm.indexOf c)).map (fun n => n + 1) := by
        rw [List.map_map]; rfl
      rw [this, map_indexOf_self perm hnd, hlen]
    exact h1.trans (h2 ▸ List.Perm.refl _)
  · intro a b ha hb hab
    have hamem : a ∈ perm := hperm.mem_iff.mpr ha
    have hbmem : b ∈ perm := hperm.mem_iff.mpr hb
    have hia : perm.indexOf a < perm.length := List.indexOf_lt_length.mpr hamem
    have hib : perm.indexOf b < perm.length := List.indexOf_lt_length.mpr hbmem
    have hilt : perm.indexOf a < perm.indexOf b := by
      unfold positionsFromSort at hab
      omega
    have hp := List.pairwise_iff_get.mp hsorted ⟨perm.indexOf a, hia⟩
      ⟨perm.indexOf b, hib⟩ hilt
    rwa [List.indexOf_get hia, List.indexOf_get hib] at hp

/-- Witness for C8 (amended): the identity order on 20 equal distances. -/
theorem claim_C8_sort_positions_witness :
    validSortOutcome (fun _ => (0 : ℚ)) (List.range numDrivers) ∧
    ((List.range numDrivers).map (positionsFromSort (List.range numDrivers))).Perm
      ((List.range numDrivers).map (fun r => r + 1)) :=
  have hv : validSortOutcome (fun _ => (0 : ℚ)) (List.range numDrivers) :=
    of_decide_eq_true (by with_unfolding_all rfl)
  ⟨hv, (claim_C8_sort_positions (fun _ => (0 : ℚ)) (List.range numDrivers) hv).1⟩

/-- The sentinel driver id the consumer writes into every slot at
construction (`car.driver_id = 255`). -/
def sentinelId : Nat := 255

/-- A consumer slot before any record arrives: value-zero frame tagged with
the sentinel id. -/
def uiBlankFrame : TFrame :=
  { timestamp_ms := 0, driver_id := sentinelId, position := 0, lap := 0,
    sector := 0, speed := 0, distance := 0, throttle := 0, tire_wear := 0,
    pit_stops := 0, pit_timer := 0, gap_to_leader := 0, flags := 0,
    sector_times := (0, 0, 0), last_lap_time := 0 }

/-- A slot holds real data when its id is not the sentinel. -/
def knownSlot (f : TFrame) : Bool := decide (f.driver_id ≠ sentinelId)

/-- The consumer's `latest_frames_` table read out slot by slot. -/
def uiSlots (latest : Nat → TFrame) : List TFrame :=
  (List.range numDrivers).map latest

/-- Number of slots holding real data. -/
def knownCount (latest : Nat → TFrame) : Nat :=
  ((uiSlots latest).filter knownSlot).length

/-- The position order used by `render_leaderboard`. -/
def slotLE (a b : TFrame) : Prop := a.position ≤ b.position

instance : DecidableRel slotLE := fun a b => by
  unfold slotLE; infer_instance

/-- The slot order produced by `render_leaderboard`: its comparator puts
every known frame before every sentinel and orders known frames by
`position`, so every `std::sort` outcome is some position-sorted
arrangement of the known frames followed by the sentinels; this function
produces one such outcome (the row count below is the same for all of
them). -/
def sortSlots (l : List TFrame) : List TFrame :=
  List.insertionSort slotLE (l.filter knownSlot) ++ l.filter (fun f => !knownSlot f)

/-- The rows `render_leaderboard` prints: of the first
`display_count = min(15, NUM_DRIVERS)` sorted slots, those holding real
data (sentinel slots are skipped). -/
def renderRows (latest : Nat → TFrame) : List TFrame :=
  ((sortSlots (uiSlots latest)).take (min 15 numDrivers)).filter knownSlot

/-- Consumer state inside `TelemetryUI::run`: the latest-frame table, the
reference-entity frame counter, and the snapshots rendered so far. -/
structure UIState where
  latest : Nat → TFrame
  counter : Nat
  renders : List (List TFrame)

/-- One iteration of the consumer loop for a popped record: store it in the
slot of its driver id; when it comes from driver 0, advance the counter and
render a snapshot every tenth such record. -/
def uiStep (s : UIState) (f : TFrame) : UIState :=
  let latest2 := Function.update s.latest f.driver_id f
  if f.driver_id = 0 then
    let c2 := s.counter + 1
    if c2 % 10 = 0 then ⟨latest2, c2, s.renders ++ [renderRows latest2]⟩
    else ⟨latest2, c2, s.renders⟩
  else ⟨latest2, s.counter, s.renders⟩

/-- The consumer loop over the sequence of popped records, starting from
all-sentinel slots. -/
def uiRun (frames : List TFrame) : UIState :=
  frames.foldl uiStep ⟨fun _ => uiBlankFrame, 0, []⟩

/-- The consumer loop followed by the unconditional final render performed
after the loop exits. -/
def uiRunFinal (frames : List TFrame) : UIState :=
  let s := uiRun frames
  ⟨s.latest, s.counter, s.renders ++ [renderRows s.latest]⟩

theorem uiStep_counter (s : UIState) (f : TFrame) :
    (uiStep s f).counter = if f.driver_id = 0 then s.counter + 1 else s.counter := by
  by_cases h0 : f.driver_id = 0 <;> by_cases h10 : (s.counter + 1) % 10 = 0 <;>
    simp [uiStep, h0, h10]

theorem uiStep_renders_length (s : UIState) (f : TFrame) :
    ((uiStep s f).renders).length = s.renders.length +
      (if f.driver_id = 0 ∧ (s.counter + 1) % 10 = 0 then 1 else 0) := by
  by_cases h0 : f.driver_id = 0 <;> by_cases h10 : (s.counter + 1) % 10 = 0 <;>
    simp [uiStep, h0, h10]

theorem uiFold_counter :
    ∀ (fs : List TFrame) (s : UIState),
    (fs.foldl uiStep s).counter =
      s.counter + (fs.filter (fun f => f.driver_id == 0)).length := by
  intro fs
  induction fs with
  | nil => intro s; simp
  | cons f rest ih =>
    intro s
    rw [List.foldl_cons, ih (uiStep s f), uiStep_counter]
    by_cases h0 : f.driver_id = 0
    · simp [h0]
      omega
    · simp [h0]

theorem uiFold_renders :
    ∀ (fs : List TFrame) (s : UIState),
    ((fs.foldl uiStep s).renders).length = s.renders.length +
      ((s.counter + (fs.filter (fun f => f.driver_id == 0)).length) / 10
        - s.counter / 10) := by
  intro fs
  induction fs with
  | nil => intro s; simp
  | cons f rest ih =>
    intro s
    have hfc : ((f :: rest).filter (fun g => g.driver_id == 0)).length =
        (rest.filter (fun g => g.driver_id == 0)).length +
        (if f.driver_id = 0 then 1 else 0) := by
      by_cases h0 : f.driver_id = 0
      · simp [List.filter_cons, h0]
      · simp [List.filter_cons, h0]
    rw [List.foldl_cons, ih (uiStep s f), uiStep_renders_length,
      uiStep_counter, hfc]
    by_cases h0 : f.driver_id = 0
    · by_cases h10 : (s.counter + 1) % 10 = 0
      · simp only [h0, h10, and_self, if_true, if_pos rfl]
        omega
      · simp only [h0, h10, eq_self_iff_true, true_and, if_true, if_false]
        omega
    · simp [h0]

theorem renderRows_length (latest : Nat → TFrame) :
    (renderRows latest).length = min 15 (knownCount latest) := by
  have hAperm := List.perm_insertionSort slotLE ((uiSlots latest).filter knownSlot)
  have hAlen : (List.insertionSort slotLE ((uiSlots latest).filter knownSlot)).length
      = ((uiSlots latest).filter knownSlot).length := hAperm.length_eq
  have hAknown : ∀ f ∈ List.insertionSort slotLE ((uiSlots latest).filter knownSlot),
      knownSlot f = true := by
    intro f hf
    exact List.of_mem_filter (hAperm.mem_iff.mp hf)
  have hBknown : ∀ f ∈ (uiSlots latest).filter (fun f => !knownSlot f),
      knownSlot f = false := by
    intro f hf
    have := List.of_mem_filter hf
    simpa using this
  have h15 : min 15 numDrivers = 15 := rfl
  unfold renderRows sortSlots
  rw [h15, List.take_append_eq_append_take, List.filter_append]
  have h1 : ((List.insertionSort slotLE ((uiSlots latest).filter knownSlot)).take 15).filter knownSlot
      = (List.insertionSort slotLE ((uiSlots latest).filter knownSlot)).take 15 := by
    apply List.filter_eq_self.mpr
    intro f hf
    exact hAknown f (List.take_subset _ _ hf)
  have h2 : ((((uiSlots latest).filter (fun f => !knownSlot f)).take
      (15 - (List.insertionSort slotLE ((uiSlots latest).filter knownSlot)).length)).filter knownSlot) = [] := by
    apply List.filter_eq_nil_iff.mpr
    intro f hf
    simp [hBknown f (List.take_subset _ _ hf)]
  rw [h1, h2, List.length_append, List.length_nil, List.length_take, hAlen]
  unfold knownCount
  omega

/-- C9 (amended): the consumer renders a snapshot exactly on every 10th
record seen from the reference entity (driver id 0) plus one final
unconditional render on loop exit; each snapshot prints one row per known
entity among the first `min(15, NUM_DRIVERS)` position-sorted slots — that
is, `min(15, #known)` rows, not one row per known entity when more than 15
entities are known. -/
theorem claim_C9_render_schedule :
    (∀ frames : List TFrame,
      ((uiRunFinal frames).renders).length =
        (frames.filter (fun f => f.driver_id == 0)).length / 10 + 1) ∧
    ∀ latest : Nat → TFrame,
      (renderRows latest).length = min 15 (knownCount latest) := by
  constructor
  · intro frames
    have hr : (uiRunFinal frames).renders =
        (uiRun frames).renders ++ [renderRows (uiRun frames).latest] := rfl
    rw [hr, List.length_append]
    have hfold := uiFold_renders frames ⟨fun _ => uiBlankFrame, 0, []⟩
    have hinit : (uiRun frames).renders = (frames.foldl uiStep ⟨fun _ => uiBlankFrame, 0, []⟩).renders := rfl
    rw [hinit, hfold]
    simp
  · exact renderRows_length

/-- C9 counterexample: a consumer table in which all 20 entities are known
renders only `min(15, NUM_DRIVERS) = 15` rows, not one row per known
entity. -/
theorem claim_C9_counterexample :
    knownCount (fun i => { uiBlankFrame with driver_id := i, position := i + 1 }) = 20 ∧
    (renderRows (fun i => { uiBlankFrame with driver_id := i, position := i + 1 })).length = 15 :=
  of_decide_eq_true (by with_unfolding_all rfl)
